import Mathlib

/-
Verification of the streaming roast route of the Roast-My-Github repository.

The definitions below are a shallow embedding of src/src/app/api/roast/route.ts:
the pure helpers (analyzeCode, daysAgo, the error-message classification in the
catch block) are translated directly, and the async session body started by POST
is modelled as a deterministic function from an environment (the outcomes of the
upstream GitHub and generation calls) to the list of operations performed on the
output sink (event writes and closure).

The JavaScript string primitives used by the route (split, includes, trim,
startsWith, slice, toLowerCase) are modelled by structural recursion over the
character list of the string, so that every definition computes by reduction.
-/

namespace Roast

/-- The discriminated union of events written to the SSE sink, as produced by
the calls to sendEvent in route.ts. -/
inductive Event where
  | status (content : String)
  | response_start
  | response_chunk (content : String)
  | response_end
  | error (content : String)
  deriving DecidableEq, Repr

/-- One operation on the output sink: a write of one event (sendEvent) or the
closing of the writer (writer.close). -/
inductive SinkOp where
  | write (e : Event)
  | close
  deriving DecidableEq, Repr

/-- Whether pat is a prefix of the character list. -/
def prefixOf : List Char → List Char → Bool
  | [], _ => true
  | _ :: _, [] => false
  | p :: ps, c :: cs => p == c && prefixOf ps cs

/-- Whether pat occurs as a contiguous sublist. -/
def occursIn (pat : List Char) : List Char → Bool
  | [] => pat.isEmpty
  | c :: cs => prefixOf pat (c :: cs) || occursIn pat cs

/-- JS String.prototype.includes, on the character lists of the strings. -/
def containsStr (s pat : String) : Bool :=
  occursIn pat.data s.data

/-- JS String.prototype.startsWith. -/
def startsWithStr (s pre : String) : Bool :=
  prefixOf pre.data s.data

/-- JS String.prototype.split with a one-character separator (the route only
splits on a newline and on an opening brace); always returns at least one
piece. -/
def splitChar (sep : Char) : List Char → List (List Char)
  | [] => [[]]
  | c :: cs =>
    if c == sep then
      [] :: splitChar sep cs
    else
      match splitChar sep cs with
      | [] => [[c]]
      | h :: t => (c :: h) :: t

/-- The lines of a code string, as in JS code.split with a newline. -/
def jsLines (s : String) : List String :=
  (splitChar (Char.ofNat 10) s.data).map String.mk

/-- JS String.prototype.trim (both ends, whitespace). -/
def jsTrim (s : String) : String :=
  String.mk (((s.data.dropWhile Char.isWhitespace).reverse.dropWhile Char.isWhitespace).reverse)

/-- JS String.prototype.toLowerCase. -/
def jsToLower (s : String) : String :=
  String.mk (s.data.map Char.toLower)

/-- JS String.prototype.slice from index zero. -/
def jsSlice (s : String) (n : Nat) : String :=
  String.mk (s.data.take n)

/-- JS String.prototype.length. -/
def jsLength (s : String) : Nat :=
  s.data.length

/-- Concatenation of lines with newline separators, as Array.prototype.join. -/
def joinLines : List String → String
  | [] => ""
  | [l] => l
  | l :: rest => l ++ "\n" ++ joinLines rest

/-- The shape of the failure value reaching the catch block of the session:
an optional numeric HTTP status and an optional message, mirroring the
error.status and error.message accesses in route.ts lines 477-484. -/
structure UpstreamError where
  status : Option Nat
  message : Option String
  deriving DecidableEq, Repr

def rateLimitText : String := "GitHub rate limit exceeded. Add GITHUB_TOKEN to .env"

def notFoundText : String := "User not found on GitHub"

def fallbackText : String := "Something went wrong"

/-- The error-message computation of the catch block (route.ts lines 477-484):
status 403 or a message containing "rate limit" gives the rate-limit text,
else status 404 gives the not-found text, else a truthy (nonempty) message is
passed through, else the fallback text. -/
def errorMessage (e : UpstreamError) : String :=
  if e.status == some 403 || containsStr (e.message.getD "") ("rate limit") then
    rateLimitText
  else if e.status == some 404 then
    notFoundText
  else
    match e.message with
    | some m => if m == "" then fallbackText else m
    | none => fallbackText

/-- The error taxonomy of the specification: not_found, rate_limited, unknown. -/
inductive ErrorClass where
  | not_found
  | rate_limited
  | unknown
  deriving DecidableEq, Repr

/-- Classification of an upstream failure into the taxonomy, following the
branch order of the catch block: the rate-limit branch first, then 404,
then everything else. -/
def classify (e : UpstreamError) : ErrorClass :=
  if e.status == some 403 || containsStr (e.message.getD "") ("rate limit") then
    ErrorClass.rate_limited
  else if e.status == some 404 then
    ErrorClass.not_found
  else
    ErrorClass.unknown

/-- The human-readable message attached to each class; for unknown the
failure's own nonempty message is passed through. -/
def classMessage (c : ErrorClass) (e : UpstreamError) : String :=
  match c with
  | ErrorClass.rate_limited => rateLimitText
  | ErrorClass.not_found => notFoundText
  | ErrorClass.unknown =>
    match e.message with
    | some m => if m == "" then fallbackText else m
    | none => fallbackText

/-- The record returned by analyzeCode (route.ts lines 82-90). The source
field commentRatio is named commentPercent here. -/
structure CodeAnalysis where
  fileName : String
  lines : Nat
  hasConsoleLog : Bool
  hasTodos : Bool
  longFunctions : Nat
  commentPercent : Nat
  snippet : String
  deriving DecidableEq, Repr

/-- The number of (possibly overlapping) occurrences of pat in the list. -/
def countOccurrences (pat : List Char) : List Char → Nat
  | [] => 0
  | c :: cs => (if prefixOf pat (c :: cs) then 1 else 0) + countOccurrences pat cs

/-- Approximates the number of matches of the function-shaped regex of
route.ts lines 66-67 by the number of occurrences of "function" plus the
number of occurrences of an arrow; the exact count is irrelevant to every
property proved below, because the filter on line 68 ignores the match and
only the length of the filtered list is kept. -/
def functionMatchCount (code : String) : Nat :=
  countOccurrences ("function").data code.data + countOccurrences ("=>").data code.data

/-- JS Math.round of num/den for nonnegative operands: floor of
num/den + 1/2, computed exactly in rational arithmetic. -/
def jsRound (num den : Nat) : Nat :=
  (2 * num + den) / (2 * den)

/-- Whether a line counts as a comment line in analyzeCode (route.ts lines
74-79): its trimmed form starts with a line comment, a block comment opener,
or a star. -/
def isCommentLine (line : String) : Bool :=
  startsWithStr (jsTrim line) ("//") || startsWithStr (jsTrim line) ("/*") ||
    startsWithStr (jsTrim line) ("*")

/-- The line list of a code string (route.ts line 56). -/
def codeLines (code : String) : List String :=
  jsLines code

/-- analyzeCode (route.ts lines 55-91): line count, case-insensitive console
and TODO detection, the long-function heuristic (which counts every regex
match when the code has more than three brace-opened blocks and none
otherwise), the rounded comment percentage, and a 15-line snippet. -/
def analyzeCode (code : String) (fileName : String) : CodeAnalysis :=
  let lines := codeLines code
  let totalLines := lines.length
  let lower := jsToLower code
  let hasConsoleLog := containsStr lower ("console.log") || containsStr lower ("console.warn") ||
    containsStr lower ("console.error") || containsStr lower ("console.info")
  let hasTodos := containsStr lower ("todo") || containsStr lower ("fixme") ||
    containsStr lower ("hack") || containsStr lower ("xxx")
  let longFunctions :=
    if (splitChar (Char.ofNat 123) code.data).length > 3 then functionMatchCount code else 0
  let commentLines := (lines.filter isCommentLine).length
  { fileName := fileName
    lines := totalLines
    hasConsoleLog := hasConsoleLog
    hasTodos := hasTodos
    longFunctions := longFunctions
    commentPercent := jsRound (commentLines * 100) totalLines
    snippet := joinLines (lines.take 15) }

/-- JS daysAgo (route.ts lines 48-52), with a date represented by its epoch
value in milliseconds and Math.floor as flooring division. -/
def daysAgo (nowMs : Int) (dateMs : Int) : Int :=
  (nowMs - dateMs).fdiv 86400000

/-- A repository record as returned by the listing call, with the fields the
route reads; dates are carried as epoch milliseconds, optional exactly where
the GitHub payload may omit them. -/
structure Repo where
  name : String
  description : Option String
  language : Option String
  stargazersCount : Option Nat
  forksCount : Option Nat
  openIssuesCount : Option Nat
  pushedAt : Option Int
  createdAt : Option Int
  deriving DecidableEq, Repr

/-- A commit as returned by the commit listing call. -/
structure CommitInfo where
  sha : String
  message : String
  authorDate : Option String
  deriving DecidableEq, Repr

/-- The statistics of the per-commit detail call; each field optional as in
detailedCommit.stats and detailedCommit.files. -/
structure CommitDetail where
  additions : Option Nat
  deletions : Option Nat
  filesCount : Option Nat
  deriving DecidableEq, Repr

/-- One entry of RepoSummary.recentCommits. -/
structure CommitRec where
  message : String
  additions : Nat
  deletions : Nat
  filesChanged : Nat
  timestamp : String
  deriving DecidableEq, Repr

/-- The parsed package.json, reduced to the dependency names the route
reads from it. -/
structure Pkg where
  dependencies : Option (List String)
  deriving DecidableEq, Repr

/-- The per-repository summary assembled in the loop (route.ts lines
259-283). -/
structure RepoSummary where
  name : String
  description : Option String
  language : Option String
  stars : Nat
  forks : Nat
  openIssues : Nat
  lastPushDays : Int
  createdDays : Int
  recentCommits : List CommitRec
  packageJson : Option Pkg
  readmeSnippet : Option String
  codeAnalysis : Option CodeAnalysis
  deriving DecidableEq, Repr

/-- The outcomes of the per-repository sub-fetches: the commit listing, the
per-commit detail, the package.json and README content fetches, and the
candidate code-file fetches keyed by path. An Except.error is a rejected
upstream call (caught by the surrounding try); an Except.ok none content
fetch succeeded but returned no content field. -/
structure RepoFetches where
  commits : Except Unit (List CommitInfo)
  detail : CommitInfo → Except Unit CommitDetail
  pkg : Except Unit (Option Pkg)
  readme : Except Unit (Option String)
  codeFile : String → Except Unit (Option String)

/-- First line of a commit message (message.split newline, index zero). -/
def firstLine (s : String) : String :=
  (jsLines s).headD s

/-- The commit entry pushed when the detail call fails (route.ts lines
179-185). -/
def basicCommitRec (c : CommitInfo) : CommitRec :=
  { message := firstLine c.message
    additions := 0
    deletions := 0
    filesChanged := 0
    timestamp := c.authorDate.getD "" }

/-- The commit entry pushed when the detail call succeeds (route.ts lines
170-176). -/
def detailedCommitRec (c : CommitInfo) (d : CommitDetail) : CommitRec :=
  { message := firstLine c.message
    additions := d.additions.getD 0
    deletions := d.deletions.getD 0
    filesChanged := d.filesCount.getD 0
    timestamp := c.authorDate.getD "" }

/-- One commit entry, degraded to the basic form when its detail fetch
fails. -/
def commitRecOf (f : RepoFetches) (c : CommitInfo) : CommitRec :=
  match f.detail c with
  | Except.ok d => detailedCommitRec c d
  | Except.error _ => basicCommitRec c

/-- The recentCommits accumulated by the loop of route.ts lines 154-188:
empty when the listing call fails, otherwise one entry per listed commit. -/
def recentCommitsOf (f : RepoFetches) : List CommitRec :=
  match f.commits with
  | Except.ok cs => cs.map (commitRecOf f)
  | Except.error _ => []

/-- The candidate code file paths (route.ts lines 223-239). -/
def codeFiles : List String :=
  ["src/index.js", "index.js", "app.js", "main.js",
   "src/index.ts", "index.ts", "app.ts", "main.ts",
   "src/App.tsx", "src/App.jsx", "App.tsx", "App.jsx",
   "main.py", "app.py", "__init__.py"]

/-- The code-file search loop (route.ts lines 241-257): try each path in
order, analyze and stop at the first fetch that yields content, skip paths
whose fetch fails or carries no content. -/
def codeAnalysisSearch (fetch : String → Except Unit (Option String)) :
    List String → Option CodeAnalysis
  | [] => none
  | p :: rest =>
    match fetch p with
    | Except.ok (some content) => some (analyzeCode content p)
    | _ => codeAnalysisSearch fetch rest

/-- The placeholder commit entry used when no commits were collected
(route.ts lines 271-279). -/
def fallbackCommit : CommitRec :=
  { message := "No commits", additions := 0, deletions := 0, filesChanged := 0, timestamp := "" }

/-- The README snippet (route.ts lines 216-218): first 300 units plus an
ellipsis when longer. -/
def readmeSnip (content : String) : String :=
  jsSlice content 300 ++ (if jsLength content > 300 then "..." else "")

/-- JS or-null on a string field: the empty string is falsy and collapses to
null. -/
def jsOrNone (o : Option String) : Option String :=
  match o with
  | some s => if s == "" then none else some s
  | none => none

/-- The summary pushed for one repository (route.ts lines 259-283), built
from the repository record and the outcomes of its own sub-fetches only. -/
def buildSummary (nowMs : Int) (r : Repo) (f : RepoFetches) : RepoSummary :=
  let rc := recentCommitsOf f
  { name := r.name
    description := r.description
    language := jsOrNone r.language
    stars := r.stargazersCount.getD 0
    forks := r.forksCount.getD 0
    openIssues := r.openIssuesCount.getD 0
    lastPushDays := match r.pushedAt with | some t => daysAgo nowMs t | none => 0
    createdDays := match r.createdAt with | some t => daysAgo nowMs t | none => 0
    recentCommits := if rc.length > 0 then rc else [fallbackCommit]
    packageJson := match f.pkg with | Except.ok p => p | Except.error _ => none
    readmeSnippet :=
      match f.readme with
      | Except.ok (some content) => jsOrNone (some (readmeSnip content))
      | _ => none
    codeAnalysis := codeAnalysisSearch f.codeFile codeFiles }

/-- The summaries array after the whole loop, one per listed repository. -/
def summariesFor (nowMs : Int) (repos : List Repo) (fetches : Repo → RepoFetches) :
    List RepoSummary :=
  repos.map (fun r => buildSummary nowMs r (fetches r))

/-- The environment of one session: the outcomes of the upstream calls the
async body awaits. The profile payload is carried as Unit because the route
uses it only to render the LLM prompt, which no event depends on. The
fragments are the chunks delivered by result.textStream before the stream
either ends normally (genFailure none) or throws (genFailure some). -/
structure Env where
  nowMs : Int
  user : Except UpstreamError Unit
  repos : Except UpstreamError (List Repo)
  fetches : Repo → RepoFetches
  fragments : List String
  genFailure : Option UpstreamError

def statusFetchingProfile : String := "Fetching GitHub profile..."

def statusFetchingRepos : String := "Fetching repositories..."

def statusAnalyzing : String := "Analyzing repositories..."

def statusRoast : String := "Preparing epic roast..."

def statusFeedback : String := "Generating feedback..."

/-- mode selection (route.ts line 420): strict equality with "roast"; the
request field may be absent. -/
def isRoast (mode : Option String) : Bool :=
  mode == some "roast"

/-- The status text before generation (route.ts lines 422-426). -/
def prepStatus (mode : Option String) : String :=
  if isRoast mode then statusRoast else statusFeedback

/-- The sampling temperature handed to streamText (route.ts line 464). -/
def temperature (mode : Option String) : Rat :=
  if isRoast mode then 9 / 10 else 7 / 10

def roastSystemPrompt : String :=
  "You are a savage but hilarious AI comedian who roasts developers. Based on the user's GitHub profile, repos, code quality, and commit history, create a BRUTALLY FUNNY roast. Use the specific roasting points provided. Be witty, creative, and merciless - but never toxic or personal. Focus on their coding habits, repo quality, and tech choices. 5-7 punchlines. Use markdown for emphasis."

def feedbackSystemPrompt : String :=
  "You are a senior engineer mentor. Give kind, constructive feedback on their repos, code hygiene, and project structure. Highlight specific strengths from their code and suggest 2-3 concrete improvements. Be encouraging and specific. Use markdown."

/-- The system prompt handed to streamText (route.ts lines 428-430). -/
def systemPromptFor (mode : Option String) : String :=
  if isRoast mode then roastSystemPrompt else feedbackSystemPrompt

/-- The error event of the zero-repository early return (route.ts lines
136-138). -/
def noReposMessage (username : String) : String :=
  "No public repos found for @" ++ username ++ ". Are you a ghost coder?"

/-- The tail of the trace produced by the catch block: one error event with
the classified message, then closure. -/
def errorClose (e : UpstreamError) : List SinkOp :=
  [SinkOp.write (Event.error (errorMessage e)), SinkOp.close]

/-- The sequence of sink operations performed by the async session body
(route.ts lines 109-489). The cancelAt argument stands for the point, if
any, at which the client's cancellation signal fires (some k meaning before
the k-th suspension point); the handler never reads the request's abort
signal, so the parameter is not consulted anywhere in the body, exactly as
in the source. -/
def sessionTrace (cancelAt : Option Nat) (username : String) (mode : Option String)
    (env : Env) : List SinkOp :=
  SinkOp.write (Event.status statusFetchingProfile) ::
    (match env.user with
     | Except.error e => errorClose e
     | Except.ok _ =>
       SinkOp.write (Event.status statusFetchingRepos) ::
         (match env.repos with
          | Except.error e => errorClose e
          | Except.ok repos =>
            if repos.length == 0 then
              [SinkOp.write (Event.error (noReposMessage username)), SinkOp.close]
            else
              SinkOp.write (Event.status statusAnalyzing) ::
              SinkOp.write (Event.status (prepStatus mode)) ::
              SinkOp.write Event.response_start ::
                (env.fragments.map (fun c => SinkOp.write (Event.response_chunk c)) ++
                  match env.genFailure with
                  | some e => errorClose e
                  | none => [SinkOp.write Event.response_end, SinkOp.close])))

/-- The request body as read by req.json, with both fields optional. -/
structure ReqBody where
  username : Option String
  mode : Option String
  deriving DecidableEq, Repr

/-- The three shapes of response POST can return (route.ts lines 96-98,
491-497, 498-501). -/
inductive HttpResult where
  | badRequest (body : String)
  | streamResponse (trace : List SinkOp)
  | serverError (body : String)
  deriving DecidableEq, Repr

def statusCode : HttpResult → Nat
  | HttpResult.badRequest _ => 400
  | HttpResult.streamResponse _ => 200
  | HttpResult.serverError _ => 500

/-- JS falsiness of an optional string: absent or empty. -/
def jsFalsyStr (o : Option String) : Bool :=
  match o with
  | none => true
  | some s => s == ""

/-- The POST handler (route.ts lines 93-502): a failed body parse is caught
by the outer try and yields 500; a falsy username yields 400; otherwise the
SSE stream backed by the session trace is returned with 200. The
cancelledAtEntry flag records whether the request was already aborted when
the handler ran; the handler performs no such check, so the flag only feeds
the unread cancelAt argument of the session. -/
def runPOST (cancelledAtEntry : Bool) (body : Except Unit ReqBody) (env : Env) : HttpResult :=
  match body with
  | Except.error _ => HttpResult.serverError fallbackText
  | Except.ok b =>
    if jsFalsyStr b.username then
      HttpResult.badRequest "Username required"
    else
      HttpResult.streamResponse
        (sessionTrace (if cancelledAtEntry then some 0 else none) (b.username.getD "") b.mode env)

/-- A GitHub API call issued by the session, with the identifier values it
carries. -/
inductive GHCall where
  | getByUsername (username : String)
  | listForUser (username : String)
  | listCommits (owner : String) (repo : String)
  | getCommit (owner : String) (repo : String) (ref : String)
  | getContent (owner : String) (repo : String) (path : String)
  deriving DecidableEq, Repr

/-- The username or owner argument a call carries. -/
def callUser : GHCall → String
  | GHCall.getByUsername u => u
  | GHCall.listForUser u => u
  | GHCall.listCommits u _ => u
  | GHCall.getCommit u _ _ => u
  | GHCall.getContent u _ _ => u

/-- The content fetches of the code-file search loop: one per tried path,
stopping after the first fetch that yields content. -/
def codeFileCalls (u rname : String) (fetch : String → Except Unit (Option String)) :
    List String → List GHCall
  | [] => []
  | p :: rest =>
    GHCall.getContent u rname p ::
      (match fetch p with
       | Except.ok (some _) => []
       | _ => codeFileCalls u rname fetch rest)

/-- The GitHub calls issued for one repository of the loop (route.ts lines
150-284): the commit listing, one detail call per listed commit, the
package.json and README fetches, then the code-file search. -/
def repoCalls (u : String) (r : Repo) (f : RepoFetches) : List GHCall :=
  GHCall.listCommits u r.name ::
    ((match f.commits with
      | Except.ok cs => cs.map (fun c => GHCall.getCommit u r.name c.sha)
      | Except.error _ => []) ++
     [GHCall.getContent u r.name "package.json", GHCall.getContent u r.name "README.md"] ++
     codeFileCalls u r.name f.codeFile codeFiles)

/-- All GitHub calls the session issues, in order, as a function of the raw
username taken from the request body: the profile fetch, then (unless it
failed) the listing, then (unless it failed or was empty) the per-repository
calls. -/
def upstreamCalls (u : String) (env : Env) : List GHCall :=
  GHCall.getByUsername u ::
    (match env.user with
     | Except.error _ => []
     | Except.ok _ =>
       GHCall.listForUser u ::
         (match env.repos with
          | Except.error _ => []
          | Except.ok repos =>
            if repos.length == 0 then []
            else repos.flatMap (fun r => repoCalls u r (env.fetches r))))

/-- The events carried by the write operations of a trace, in order. -/
def eventsOf (ops : List SinkOp) : List Event :=
  ops.filterMap (fun op => match op with | SinkOp.write e => some e | SinkOp.close => none)

def isStatusEvent : Event → Bool
  | Event.status _ => true
  | _ => false

def isChunkEvent : Event → Bool
  | Event.response_chunk _ => true
  | _ => false

def isErrorWrite : SinkOp → Bool
  | SinkOp.write (Event.error _) => true
  | _ => false

def isCloseOp : SinkOp → Bool
  | SinkOp.close => true
  | _ => false

/-- The number of error events written in a trace. -/
def countErrorEvents (ops : List SinkOp) : Nat :=
  (ops.filter isErrorWrite).length

/-- The number of close operations in a trace. -/
def countCloseOps (ops : List SinkOp) : Nat :=
  (ops.filter isCloseOp).length

/-- The payloads of the response_chunk events of a trace, in order. -/
def chunkPayloads (evs : List Event) : List String :=
  evs.filterMap (fun ev => match ev with | Event.response_chunk c => some c | _ => none)

/-- Whether an event sequence matches the normal-completion grammar of the
specification: zero or more status, one response_start, zero or more
response_chunk, one response_end. -/
def matchesNormalGrammar (evs : List Event) : Bool :=
  match evs.dropWhile isStatusEvent with
  | Event.response_start :: tail => tail.dropWhile isChunkEvent == [Event.response_end]
  | _ => false

/-- A fetch oracle on which every per-repository sub-fetch fails. -/
def emptyFetches : RepoFetches :=
  { commits := Except.error ()
    detail := fun _ => Except.error ()
    pkg := Except.error ()
    readme := Except.error ()
    codeFile := fun _ => Except.error () }

/-- A session whose profile fetch succeeds and whose listing returns no
repositories. -/
def envNoRepos : Env :=
  { nowMs := 0, user := Except.ok (), repos := Except.ok [], fetches := fun _ => emptyFetches,
    fragments := [], genFailure := none }

/-- A not-found failure value: HTTP status 404, no message. -/
def err404 : UpstreamError :=
  { status := some 404, message := none }

/-- A session whose profile fetch is rejected with a 404. -/
def env404 : Env :=
  { nowMs := 0, user := Except.error err404, repos := Except.ok [],
    fetches := fun _ => emptyFetches, fragments := [], genFailure := none }

/-- A sample repository record. -/
def repo0 : Repo :=
  { name := "hello-world", description := none, language := some "TypeScript",
    stargazersCount := some 1, forksCount := none, openIssuesCount := none,
    pushedAt := none, createdAt := none }

/-- A sample commit record. -/
def commit0 : CommitInfo :=
  { sha := "abc123", message := "fix: first\nbody", authorDate := some "2024-01-01T00:00:00Z" }

/-- A session that completes normally with the generation fragments
a, b, c. -/
def envABC : Env :=
  { nowMs := 0, user := Except.ok (), repos := Except.ok [repo0],
    fetches := fun _ => emptyFetches, fragments := ["a", "b", "c"], genFailure := none }

/- Helper lemmas. -/

theorem splitChar_length_pos (sep : Char) (l : List Char) : 0 < (splitChar sep l).length := by
  induction l with
  | nil => simp [splitChar]
  | cons c cs ih =>
    rw [splitChar]
    by_cases h : (c == sep) = true
    · simp [h]
    · rw [if_neg h]
      cases hs : splitChar sep cs with
      | nil => simp
      | cons hd tl => simp

theorem codeLines_length_pos (code : String) : 0 < (codeLines code).length := by
  have := splitChar_length_pos (Char.ofNat 10) code.data
  simpa [codeLines, jsLines] using this

/-- A filter that rejects every chunk write finds nothing in a list of chunk
writes. -/
theorem filter_chunk_writes (p : SinkOp → Bool)
    (h : ∀ c, p (SinkOp.write (Event.response_chunk c)) = false) (l : List String) :
    (l.map (fun c => SinkOp.write (Event.response_chunk c))).filter p = [] := by
  induction l with
  | nil => rfl
  | cons c cs ih => simp [List.filter, h, ih]

theorem filter_close_map_write (evs : List Event) :
    (evs.map SinkOp.write).filter isCloseOp = [] := by
  induction evs with
  | nil => rfl
  | cons e es ih => simp [List.filter, isCloseOp, ih]

theorem dropWhile_chunk_map (frags : List String) :
    (frags.map Event.response_chunk ++ [Event.response_end]).dropWhile isChunkEvent =
      [Event.response_end] := by
  induction frags with
  | nil => rfl
  | cons c cs ih => rw [List.map_cons, List.cons_append, List.dropWhile_cons_of_pos (by rfl)]; exact ih

theorem chunkPayloads_chunk_map (frags : List String) :
    chunkPayloads (frags.map Event.response_chunk ++ [Event.response_end]) = frags := by
  induction frags with
  | nil => rfl
  | cons c cs ih => simpa [chunkPayloads, List.filterMap] using ih

theorem codeAnalysisSearch_all_fail (fetch : String → Except Unit (Option String))
    (h : ∀ p, fetch p = Except.error ()) (paths : List String) :
    codeAnalysisSearch fetch paths = none := by
  induction paths with
  | nil => rfl
  | cons p rest ih => rw [codeAnalysisSearch, h p]; exact ih

theorem callUser_codeFileCalls (u rname : String) (fetch : String → Except Unit (Option String))
    (paths : List String) (call : GHCall) (h : call ∈ codeFileCalls u rname fetch paths) :
    callUser call = u := by
  induction paths with
  | nil => simp [codeFileCalls] at h
  | cons p rest ih =>
    rw [codeFileCalls] at h
    rcases List.mem_cons.mp h with rfl | h2
    · rfl
    · cases hf : fetch p with
      | ok o =>
        cases o with
        | some s => rw [hf] at h2; simp at h2
        | none => rw [hf] at h2; exact ih (by simpa using h2)
      | error _ => rw [hf] at h2; exact ih (by simpa using h2)

theorem callUser_repoCalls (u : String) (r : Repo) (f : RepoFetches) (call : GHCall)
    (h : call ∈ repoCalls u r f) : callUser call = u := by
  rw [repoCalls] at h
  rcases List.mem_cons.mp h with rfl | h2
  · rfl
  rcases List.mem_append.mp h2 with h3 | h4
  · rcases List.mem_append.mp h3 with h5 | h6
    · cases hf : f.commits with
      | ok cs =>
        rw [hf] at h5
        rcases List.mem_map.mp h5 with ⟨c, _, rfl⟩
        rfl
      | error _ => rw [hf] at h5; simp at h5
    · rcases List.mem_cons.mp h6 with rfl | h7
      · rfl
      · rcases List.mem_cons.mp h7 with rfl | h8
        · rfl
        · simp at h8
  · exact callUser_codeFileCalls u r.name f.codeFile codeFiles call h4

theorem eventsOf_chunk_map (frags : List String) :
    eventsOf (frags.map (fun c => SinkOp.write (Event.response_chunk c))) =
      frags.map Event.response_chunk := by
  induction frags with
  | nil => rfl
  | cons c cs ih => simp [eventsOf, List.filterMap] at ih ⊢; exact ih

theorem chunkPayloads_cons_status (s : String) (evs : List Event) :
    chunkPayloads (Event.status s :: evs) = chunkPayloads evs := rfl

theorem chunkPayloads_cons_start (evs : List Event) :
    chunkPayloads (Event.response_start :: evs) = chunkPayloads evs := rfl

/- Claim theorems. -/

/-- Claim C4: every session closes the sink exactly once, as its very last
operation — the whole trace is a list of writes followed by one close, so no
write ever follows closure, the sink is never closed twice, and no terminal
event is duplicated. -/
theorem sink_closed_once_no_writes_after (cancelAt : Option Nat) (u : String)
    (mode : Option String) (env : Env) :
    (∃ evs : List Event,
      sessionTrace cancelAt u mode env = evs.map SinkOp.write ++ [SinkOp.close]) ∧
    countCloseOps (sessionTrace cancelAt u mode env) = 1 := by
  have part1 : ∃ evs : List Event,
      sessionTrace cancelAt u mode env = evs.map SinkOp.write ++ [SinkOp.close] := by
    obtain ⟨now, user, repos, fetches, frags, gf⟩ := env
    cases user with
    | error e =>
      exact ⟨[Event.status statusFetchingProfile, Event.error (errorMessage e)], rfl⟩
    | ok _ =>
      cases repos with
      | error e =>
        exact ⟨[Event.status statusFetchingProfile, Event.status statusFetchingRepos,
          Event.error (errorMessage e)], rfl⟩
      | ok rs =>
        by_cases hz : (rs.length == 0) = true
        · refine ⟨[Event.status statusFetchingProfile, Event.status statusFetchingRepos,
            Event.error (noReposMessage u)], ?_⟩
          simp [sessionTrace, hz]
        · cases gf with
          | some e =>
            refine ⟨[Event.status statusFetchingProfile, Event.status statusFetchingRepos,
              Event.status statusAnalyzing, Event.status (prepStatus mode),
              Event.response_start] ++ frags.map Event.response_chunk ++
              [Event.error (errorMessage e)], ?_⟩
            simp [sessionTrace, hz, errorClose, List.map_append]
          | none =>
            refine ⟨[Event.status statusFetchingProfile, Event.status statusFetchingRepos,
              Event.status statusAnalyzing, Event.status (prepStatus mode),
              Event.response_start] ++ frags.map Event.response_chunk ++
              [Event.response_end], ?_⟩
            simp [sessionTrace, hz, List.map_append]
  refine ⟨part1, ?_⟩
  obtain ⟨evs, hevs⟩ := part1
  rw [countCloseOps, hevs, List.filter_append, filter_close_map_write]
  rfl

/-- Claim C2: a session whose profile fetch, listing (nonempty) and
generation all succeed writes exactly the sequence status, status, status,
status, response_start, one response_chunk per generation fragment carrying
its text verbatim and in order, response_end, and then closes; the event
sequence matches the grammar of zero or more status, one response_start,
zero or more response_chunk, one response_end. -/
theorem normal_completion_grammar (cancelAt : Option Nat) (u : String) (mode : Option String)
    (env : Env) (repos : List Repo) (hu : env.user = Except.ok ())
    (hr : env.repos = Except.ok repos) (hne : repos ≠ []) (hg : env.genFailure = none) :
    sessionTrace cancelAt u mode env =
      [SinkOp.write (Event.status statusFetchingProfile),
       SinkOp.write (Event.status statusFetchingRepos),
       SinkOp.write (Event.status statusAnalyzing),
       SinkOp.write (Event.status (prepStatus mode)),
       SinkOp.write Event.response_start] ++
        env.fragments.map (fun c => SinkOp.write (Event.response_chunk c)) ++
        [SinkOp.write Event.response_end, SinkOp.close] ∧
    matchesNormalGrammar (eventsOf (sessionTrace cancelAt u mode env)) = true ∧
    chunkPayloads (eventsOf (sessionTrace cancelAt u mode env)) = env.fragments := by
  have hz : (repos.length == 0) = false := by
    rw [beq_eq_false_iff_ne]
    simpa [List.length_eq_zero] using hne
  have h1 : sessionTrace cancelAt u mode env =
      [SinkOp.write (Event.status statusFetchingProfile),
       SinkOp.write (Event.status statusFetchingRepos),
       SinkOp.write (Event.status statusAnalyzing),
       SinkOp.write (Event.status (prepStatus mode)),
       SinkOp.write Event.response_start] ++
        env.fragments.map (fun c => SinkOp.write (Event.response_chunk c)) ++
        [SinkOp.write Event.response_end, SinkOp.close] := by
    rw [sessionTrace, hu, hr, hg]
    simp [hz]
  have h2 : eventsOf (sessionTrace cancelAt u mode env) =
      [Event.status statusFetchingProfile, Event.status statusFetchingRepos,
       Event.status statusAnalyzing, Event.status (prepStatus mode), Event.response_start] ++
        env.fragments.map Event.response_chunk ++ [Event.response_end] := by
    rw [h1]
    rw [eventsOf, List.filterMap_append, List.filterMap_append]
    rw [show (env.fragments.map (fun c => SinkOp.write (Event.response_chunk c))).filterMap
        (fun op => match op with | SinkOp.write e => some e | SinkOp.close => none) =
        eventsOf (env.fragments.map (fun c => SinkOp.write (Event.response_chunk c))) from rfl]
    rw [eventsOf_chunk_map]
    rfl
  refine ⟨h1, ?_, ?_⟩
  · rw [h2]
    rw [matchesNormalGrammar]
    simp only [List.cons_append, List.nil_append]
    rw [List.dropWhile_cons_of_pos (by rfl), List.dropWhile_cons_of_pos (by rfl),
      List.dropWhile_cons_of_pos (by rfl), List.dropWhile_cons_of_pos (by rfl),
      List.dropWhile_cons_of_neg (by simp [isStatusEvent])]
    show (List.dropWhile isChunkEvent
      (List.map Event.response_chunk env.fragments ++ [Event.response_end]) ==
        [Event.response_end]) = true
    rw [dropWhile_chunk_map]
    rfl
  · rw [h2]
    simp only [List.cons_append, List.nil_append]
    rw [chunkPayloads_cons_status, chunkPayloads_cons_status, chunkPayloads_cons_status,
      chunkPayloads_cons_status, chunkPayloads_cons_start]
    exact chunkPayloads_chunk_map env.fragments

/-- Claim C2 witness: for the generation fragments a, b, c the relay emits
exactly three response_chunk events with those payloads in order, bounded by
one response_start and one response_end. -/
theorem normal_completion_grammar_witness :
    sessionTrace none "octocat" (some "roast") envABC =
      [SinkOp.write (Event.status statusFetchingProfile),
       SinkOp.write (Event.status statusFetchingRepos),
       SinkOp.write (Event.status statusAnalyzing),
       SinkOp.write (Event.status statusRoast),
       SinkOp.write Event.response_start,
       SinkOp.write (Event.response_chunk "a"),
       SinkOp.write (Event.response_chunk "b"),
       SinkOp.write (Event.response_chunk "c"),
       SinkOp.write Event.response_end, SinkOp.close] ∧
    matchesNormalGrammar (eventsOf (sessionTrace none "octocat" (some "roast") envABC)) = true ∧
    chunkPayloads (eventsOf (sessionTrace none "octocat" (some "roast") envABC)) =
      ["a", "b", "c"] := by
  have h := normal_completion_grammar none "octocat" (some "roast") envABC [repo0] rfl rfl
    (List.cons_ne_nil _ _) rfl
  refine ⟨?_, h.2.1, ?_⟩
  · rw [h.1]; rfl
  · rw [h.2.2]; rfl

/-- Claim C1, counterexample: a session canceled before its first upstream
awaitable behaves exactly like an uncanceled one — the relay does not stop,
and when the profile fetch fails the aborted session still writes an error
event, contradicting the claim that an aborted session never produces one. -/
theorem aborted_session_emits_error :
    sessionTrace (some 0) "octocat" none env404 = sessionTrace none "octocat" none env404 ∧
    countErrorEvents (sessionTrace (some 0) "octocat" none env404) = 1 :=
  ⟨rfl, by decide⟩

/-- Claim C1 as amended: the relay never consults the cancellation signal;
the sequence of sink operations of a session is identical no matter whether
or when cancellation fires, so no upstream awaitable is raced against it and
a canceled session that hits an upstream failure still emits an error
event. -/
theorem cancellation_never_consulted (cancelAt cancelAt' : Option Nat) (u : String)
    (mode : Option String) (env : Env) :
    sessionTrace cancelAt u mode env = sessionTrace cancelAt' u mode env :=
  rfl

/-- Claim C5, counterexample: the target identifier supplied as a full
profile URL is not normalized — the very first upstream call carries the raw
URL, whose username value differs from the bare handle octocat. -/
theorem identifier_not_normalized_counterexample :
    (upstreamCalls "https://github.com/octocat/" envNoRepos).head? =
      some (GHCall.getByUsername "https://github.com/octocat/") ∧
    callUser (GHCall.getByUsername "https://github.com/octocat/") ≠ "octocat" :=
  ⟨rfl, by decide⟩

/-- Claim C5 as amended: no normalization is performed on the target
identifier; every upstream GitHub call of a session carries the raw request
value unchanged. -/
theorem identifier_passed_unnormalized (u : String) (env : Env) (call : GHCall)
    (hmem : call ∈ upstreamCalls u env) : callUser call = u := by
  rw [upstreamCalls] at hmem
  rcases List.mem_cons.mp hmem with rfl | h2
  · rfl
  cases hu : env.user with
  | error e => rw [hu] at h2; simp at h2
  | ok _ =>
    rw [hu] at h2
    simp only [] at h2
    rcases List.mem_cons.mp h2 with rfl | h3
    · rfl
    cases hr : env.repos with
    | error e => rw [hr] at h3; simp at h3
    | ok repos =>
      rw [hr] at h3
      simp only [] at h3
      by_cases hz : (repos.length == 0) = true
      · rw [if_pos hz] at h3; simp at h3
      · rw [if_neg hz] at h3
        rcases List.mem_flatMap.mp h3 with ⟨r, _, hmemr⟩
        exact callUser_repoCalls u r (env.fetches r) call hmemr

/-- Claim C5 witness: in a concrete session the profile-URL identifier is a
member of the issued calls and the amended theorem yields it back
verbatim. -/
theorem identifier_passed_unnormalized_witness :
    GHCall.getByUsername "https://github.com/octocat/" ∈
      upstreamCalls "https://github.com/octocat/" envNoRepos ∧
    callUser (GHCall.getByUsername "https://github.com/octocat/") =
      "https://github.com/octocat/" :=
  ⟨by decide,
   identifier_passed_unnormalized "https://github.com/octocat/" envNoRepos _ (by decide)⟩

/-- Claim C6, counterexample: a request that is already canceled at entry is
not answered with a 499-equivalent early return; with a valid username the
handler still answers 200 with the event stream. -/
theorem cancelled_entry_returns_stream :
    runPOST true (Except.ok { username := some "octocat", mode := none }) envNoRepos =
      HttpResult.streamResponse (sessionTrace (some 0) "octocat" none envNoRepos) ∧
    statusCode (runPOST true (Except.ok { username := some "octocat", mode := none })
      envNoRepos) = 200 :=
  ⟨rfl, rfl⟩

/-- Claim C6 as amended: the handler answers 400 when the username is
missing or empty, 500 when reading the request body fails, and 200 with the
event stream otherwise; cancellation at entry is never checked, so a
canceled request is handled exactly like an uncanceled one. -/
theorem response_code_mapping (cancelled : Bool) (body : Except Unit ReqBody) (env : Env) :
    statusCode (runPOST cancelled body env) =
      (match body with
       | Except.error _ => 500
       | Except.ok b => if jsFalsyStr b.username then 400 else 200) ∧
    runPOST true body env = runPOST false body env := by
  constructor
  · cases body with
    | error _ => rfl
    | ok b =>
      by_cases h : jsFalsyStr b.username = true
      · simp [runPOST, statusCode, h]
      · simp only [Bool.not_eq_true] at h
        simp [runPOST, statusCode, h]
  · cases body with
    | error _ => rfl
    | ok b => rfl

/-- Claim C9: only the exact mode string "roast" selects roast behavior; any
other value, including feedback and an absent field, selects the feedback
system prompt, temperature 0.7 and the feedback status text. -/
theorem mode_gate_feedback_default (mode : Option String) :
    (mode ≠ some "roast" →
      isRoast mode = false ∧ temperature mode = 7 / 10 ∧ prepStatus mode = statusFeedback ∧
        systemPromptFor mode = feedbackSystemPrompt) ∧
    (mode = some "roast" →
      isRoast mode = true ∧ temperature mode = 9 / 10 ∧ prepStatus mode = statusRoast ∧
        systemPromptFor mode = roastSystemPrompt) := by
  constructor
  · intro h
    have hb : isRoast mode = false := by
      simp [isRoast]
      exact h
    exact ⟨hb, by simp [temperature, hb], by simp [prepStatus, hb], by simp [systemPromptFor, hb]⟩
  · intro h
    subst h
    have hb : isRoast (some "roast") = true := by decide
    exact ⟨hb, by simp [temperature, hb], by simp [prepStatus, hb], by simp [systemPromptFor, hb]⟩

/-- Claim C9 witness: the explicit mode value feedback selects the feedback
behavior. -/
theorem mode_gate_feedback_default_witness :
    isRoast (some "feedback") = false ∧ temperature (some "feedback") = 7 / 10 ∧
      prepStatus (some "feedback") = statusFeedback ∧
      systemPromptFor (some "feedback") = feedbackSystemPrompt :=
  (mode_gate_feedback_default (some "feedback")).1 (by decide)

/-- Claim C10: analyzeCode is total and never divides by zero — the line
split always yields at least one line, the counted comment lines never
exceed the total lines, and the rounded comment percentage is an integer in
the range zero to one hundred. -/
theorem analyzeCode_total_and_bounded (code fileName : String) :
    1 ≤ (analyzeCode code fileName).lines ∧
    ((codeLines code).filter isCommentLine).length ≤ (codeLines code).length ∧
    (analyzeCode code fileName).commentPercent ≤ 100 := by
  have ht : 1 ≤ (codeLines code).length := codeLines_length_pos code
  have hc : ((codeLines code).filter isCommentLine).length ≤ (codeLines code).length :=
    List.length_filter_le _ _
  refine ⟨ht, hc, ?_⟩
  show jsRound (((codeLines code).filter isCommentLine).length * 100) (codeLines code).length ≤ 100
  rw [jsRound]
  set t := (codeLines code).length with hdeft
  set c := ((codeLines code).filter isCommentLine).length with hdefc
  have h2t : 0 < 2 * t := by omega
  have hlt : (2 * (c * 100) + t) / (2 * t) < 101 :=
    (Nat.div_lt_iff_lt_mul h2t).mpr (by omega)
  omega

/-- Claim C7: a session whose listing returns zero repositories writes
exactly one error event, whose payload contains the literal handle, writes
no response_start, and closes the sink. -/
theorem zero_repos_single_error (cancelAt : Option Nat) (u : String) (mode : Option String)
    (env : Env) (hu : env.user = Except.ok ()) (hr : env.repos = Except.ok []) :
    sessionTrace cancelAt u mode env =
      [SinkOp.write (Event.status statusFetchingProfile),
       SinkOp.write (Event.status statusFetchingRepos),
       SinkOp.write (Event.error (noReposMessage u)), SinkOp.close] ∧
    countErrorEvents (sessionTrace cancelAt u mode env) = 1 ∧
    (∃ pre post, noReposMessage u = pre ++ u ++ post) ∧
    Event.response_start ∉ eventsOf (sessionTrace cancelAt u mode env) := by
  have h1 : sessionTrace cancelAt u mode env =
      [SinkOp.write (Event.status statusFetchingProfile),
       SinkOp.write (Event.status statusFetchingRepos),
       SinkOp.write (Event.error (noReposMessage u)), SinkOp.close] := by
    rw [sessionTrace, hu, hr]
    rfl
  refine ⟨h1, ?_, ⟨"No public repos found for @", ". Are you a ghost coder?", rfl⟩, ?_⟩
  · rw [countErrorEvents, h1]
    rfl
  · rw [h1]
    simp [eventsOf]

/-- Claim C7 witness: the handle octocat with an empty listing yields the
single error event containing the handle and no response_start. -/
theorem zero_repos_single_error_witness :
    sessionTrace none "octocat" none envNoRepos =
      [SinkOp.write (Event.status statusFetchingProfile),
       SinkOp.write (Event.status statusFetchingRepos),
       SinkOp.write (Event.error (noReposMessage "octocat")), SinkOp.close] ∧
    countErrorEvents (sessionTrace none "octocat" none envNoRepos) = 1 ∧
    (∃ pre post, noReposMessage "octocat" = pre ++ "octocat" ++ post) ∧
    Event.response_start ∉ eventsOf (sessionTrace none "octocat" none envNoRepos) :=
  zero_repos_single_error none "octocat" none envNoRepos rfl rfl

/-- Claim C3: the classification of an upstream failure is total and
exclusive over not_found, rate_limited and unknown; a session in which any
top-level awaited step fails with the failure value writes exactly one error
event, carrying exactly the classified message, and then closes the sink. -/
theorem upstream_failure_classified (e : UpstreamError) (cancelAt : Option Nat) (u : String)
    (mode : Option String) (env : Env)
    (hfail : env.user = Except.error e ∨
      (env.user = Except.ok () ∧ env.repos = Except.error e) ∨
      (env.user = Except.ok () ∧ (∃ repos, env.repos = Except.ok repos ∧ repos ≠ []) ∧
        env.genFailure = some e)) :
    ((classify e = ErrorClass.not_found ∧ classify e ≠ ErrorClass.rate_limited ∧
        classify e ≠ ErrorClass.unknown) ∨
     (classify e = ErrorClass.rate_limited ∧ classify e ≠ ErrorClass.not_found ∧
        classify e ≠ ErrorClass.unknown) ∨
     (classify e = ErrorClass.unknown ∧ classify e ≠ ErrorClass.not_found ∧
        classify e ≠ ErrorClass.rate_limited)) ∧
    errorMessage e = classMessage (classify e) e ∧
    countErrorEvents (sessionTrace cancelAt u mode env) = 1 ∧
    (∃ pre, sessionTrace cancelAt u mode env =
      pre ++ [SinkOp.write (Event.error (classMessage (classify e) e)), SinkOp.close]) := by
  have hmsg : errorMessage e = classMessage (classify e) e := by
    rw [errorMessage, classify]
    split_ifs with h1 h2
    · rfl
    · rfl
    · rfl
  have hcls : (classify e = ErrorClass.not_found ∧ classify e ≠ ErrorClass.rate_limited ∧
        classify e ≠ ErrorClass.unknown) ∨
      (classify e = ErrorClass.rate_limited ∧ classify e ≠ ErrorClass.not_found ∧
        classify e ≠ ErrorClass.unknown) ∨
      (classify e = ErrorClass.unknown ∧ classify e ≠ ErrorClass.not_found ∧
        classify e ≠ ErrorClass.rate_limited) := by
    cases hcl : classify e with
    | not_found => exact Or.inl ⟨rfl, by simp, by simp⟩
    | rate_limited => exact Or.inr (Or.inl ⟨rfl, by simp, by simp⟩)
    | unknown => exact Or.inr (Or.inr ⟨rfl, by simp, by simp⟩)
  refine ⟨hcls, hmsg, ?_⟩
  rw [← hmsg]
  rcases hfail with hu | ⟨hu, hr⟩ | ⟨hu, ⟨repos, hr, hne⟩, hg⟩
  · have h1 : sessionTrace cancelAt u mode env =
        [SinkOp.write (Event.status statusFetchingProfile)] ++ errorClose e := by
      rw [sessionTrace, hu]
      rfl
    refine ⟨?_, ⟨[SinkOp.write (Event.status statusFetchingProfile)], by rw [h1]; rfl⟩⟩
    rw [countErrorEvents, h1]
    rfl
  · have h1 : sessionTrace cancelAt u mode env =
        [SinkOp.write (Event.status statusFetchingProfile),
         SinkOp.write (Event.status statusFetchingRepos)] ++ errorClose e := by
      rw [sessionTrace, hu, hr]
      rfl
    refine ⟨?_, ⟨[SinkOp.write (Event.status statusFetchingProfile),
      SinkOp.write (Event.status statusFetchingRepos)], by rw [h1]; rfl⟩⟩
    rw [countErrorEvents, h1]
    rfl
  · have hz : (repos.length == 0) = false := by
      rw [beq_eq_false_iff_ne]
      simpa [List.length_eq_zero] using hne
    have h1 : sessionTrace cancelAt u mode env =
        ([SinkOp.write (Event.status statusFetchingProfile),
          SinkOp.write (Event.status statusFetchingRepos),
          SinkOp.write (Event.status statusAnalyzing),
          SinkOp.write (Event.status (prepStatus mode)),
          SinkOp.write Event.response_start] ++
          env.fragments.map (fun c => SinkOp.write (Event.response_chunk c))) ++
          errorClose e := by
      rw [sessionTrace, hu, hr, hg]
      simp [hz]
    refine ⟨?_, ⟨[SinkOp.write (Event.status statusFetchingProfile),
        SinkOp.write (Event.status statusFetchingRepos),
        SinkOp.write (Event.status statusAnalyzing),
        SinkOp.write (Event.status (prepStatus mode)),
        SinkOp.write Event.response_start] ++
        env.fragments.map (fun c => SinkOp.write (Event.response_chunk c)), by rw [h1]; rfl⟩⟩
    rw [countErrorEvents, h1, List.filter_append, List.filter_append,
      filter_chunk_writes isErrorWrite (fun c => rfl)]
    rfl

/-- Claim C3 witness: a 404 failure of the profile fetch is classified as
not_found, exactly one error event carrying the not-found message is
written, and the sink closes. -/
theorem upstream_failure_classified_witness :
    ((classify err404 = ErrorClass.not_found ∧ classify err404 ≠ ErrorClass.rate_limited ∧
        classify err404 ≠ ErrorClass.unknown) ∨
     (classify err404 = ErrorClass.rate_limited ∧ classify err404 ≠ ErrorClass.not_found ∧
        classify err404 ≠ ErrorClass.unknown) ∨
     (classify err404 = ErrorClass.unknown ∧ classify err404 ≠ ErrorClass.not_found ∧
        classify err404 ≠ ErrorClass.rate_limited)) ∧
    errorMessage err404 = classMessage (classify err404) err404 ∧
    countErrorEvents (sessionTrace none "octocat" none env404) = 1 ∧
    (∃ pre, sessionTrace none "octocat" none env404 =
      pre ++ [SinkOp.write (Event.error (classMessage (classify err404) err404)),
        SinkOp.close]) :=
  upstream_failure_classified err404 none "octocat" none env404 (Or.inl rfl)

/-- Claim C8: the summaries array always has one entry per listed
repository, each entry a function of its own repository record and its own
sub-fetch outcomes only; a failed sub-fetch only degrades the corresponding
field of that one summary (empty commit list replaced by the placeholder, a
failed detail call degrading that one commit to its basic form, null
package.json, absent README snippet, absent code analysis); and the event
trace of the session does not depend on the sub-fetch outcomes at all, so no
sub-fetch failure can terminate the session. -/
theorem per_repo_failure_isolation (nowMs : Int) (repos : List Repo)
    (fetches : Repo → RepoFetches) (r : Repo) (f : RepoFetches) (cs : List CommitInfo)
    (c : CommitInfo) (cancelAt : Option Nat) (u : String) (mode : Option String)
    (e1 e2 : Env) :
    (summariesFor nowMs repos fetches).length = repos.length ∧
    (∀ i : Nat, (summariesFor nowMs repos fetches)[i]? =
      (repos[i]?).map (fun rp => buildSummary nowMs rp (fetches rp))) ∧
    (f.commits = Except.error () → (buildSummary nowMs r f).recentCommits = [fallbackCommit]) ∧
    (f.commits = Except.ok cs → c ∈ cs → f.detail c = Except.error () →
      basicCommitRec c ∈ (buildSummary nowMs r f).recentCommits) ∧
    (f.pkg = Except.error () → (buildSummary nowMs r f).packageJson = none) ∧
    (f.readme = Except.error () → (buildSummary nowMs r f).readmeSnippet = none) ∧
    ((∀ p, f.codeFile p = Except.error ()) → (buildSummary nowMs r f).codeAnalysis = none) ∧
    (e1.user = e2.user → e1.repos = e2.repos → e1.fragments = e2.fragments →
      e1.genFailure = e2.genFailure →
      sessionTrace cancelAt u mode e1 = sessionTrace cancelAt u mode e2) := by
  refine ⟨List.length_map _ _, fun i => List.getElem?_map .., ?_, ?_, ?_, ?_, ?_, ?_⟩
  · intro h
    simp [buildSummary, recentCommitsOf, h]
  · intro h hc hd
    have hmem : basicCommitRec c ∈ recentCommitsOf f := by
      rw [recentCommitsOf, h]
      exact List.mem_map.mpr ⟨c, hc, by rw [commitRecOf, hd]⟩
    have hlen : 0 < (recentCommitsOf f).length := List.length_pos.mpr (by
      intro hnil
      rw [hnil] at hmem
      exact List.not_mem_nil _ hmem)
    simp only [buildSummary]
    rw [if_pos (by simpa using hlen)]
    exact hmem
  · intro h
    simp [buildSummary, h]
  · intro h
    simp [buildSummary, h]
  · intro h
    simp [buildSummary, codeAnalysisSearch_all_fail f.codeFile h]
  · intro h1 h2 h3 h4
    obtain ⟨n1, u1, r1, f1, fr1, g1⟩ := e1
    obtain ⟨n2, u2, r2, f2, fr2, g2⟩ := e2
    simp only [] at h1 h2 h3 h4
    subst h1
    subst h2
    subst h3
    subst h4
    rfl

/-- Claim C8 witness: a repository all of whose sub-fetches fail still
yields a summary, with the placeholder commit list, null package data,
absent README snippet and absent code analysis. -/
theorem per_repo_failure_isolation_witness :
    (summariesFor 0 [repo0] (fun _ => emptyFetches)).length = 1 ∧
    (buildSummary 0 repo0 emptyFetches).recentCommits = [fallbackCommit] ∧
    (buildSummary 0 repo0 emptyFetches).packageJson = none ∧
    (buildSummary 0 repo0 emptyFetches).readmeSnippet = none ∧
    (buildSummary 0 repo0 emptyFetches).codeAnalysis = none := by
  have h := per_repo_failure_isolation 0 [repo0] (fun _ => emptyFetches) repo0 emptyFetches
    [] commit0 none "octocat" none envNoRepos envNoRepos
  exact ⟨h.1, h.2.2.1 rfl, h.2.2.2.2.1 rfl, h.2.2.2.2.2.1 rfl,
    h.2.2.2.2.2.2.1 (fun p => rfl)⟩

end Roast
